import Mathlib

/-!
Verification of the VoiceChannelHandling cog (temporary-voice-channel
lifecycle manager).

Shallow embedding of `src/VoiceChannelHandling/voicechannelhandling.py` and
`src/VoiceChannelHandling/VCC/VCOwnerCommand.py`.

Modelling conventions:
- Discord snowflake ids (guild, channel, user) are `Nat`.
- The Python `counter` config value is arbitrary-precision and may in
  principle be missing, so it is modelled as `Option Int` (the code guards
  `current is None or current < 1`).
- The per-guild `owner_channels` dict (`str(user_id) -> channel_id`,
  insertion-ordered) is modelled as an association list `List (Nat × Nat)`
  with Python-dict assignment semantics (update in place if the key exists,
  else append); `str` is injective on ids so `Nat` keys are faithful.
- The in-memory `_delete_tasks` dict (`channel_id -> asyncio.Task`) is
  modelled by its key set as a `List Nat`: an entry present means a live,
  not-yet-cancelled sleeping timer task for that channel.
- The external platform (the Discord guild) is modelled by the list of
  existing voice-channel ids, the list of existing category ids, and an
  association list giving each channel its current occupant count
  (`len(channel.members)`).  Channel deletion on the platform removes the
  id (set semantics), and a delete of an already-gone channel is a no-op,
  which models `except discord.NotFound: pass`.
-/

namespace VCH

/-- Identity of a (human or bot) guild member as the code consumes it:
`member.id`, `member.display_name`, `str(member)` (the tag), `member.bot`. -/
structure Member where
  id : Nat
  display_name : String
  tag : String
  bot : Bool
deriving DecidableEq

/-- Per-guild persisted configuration, from `default_guild` in
`VoiceChannelHandling.__init__`. -/
structure GuildConfig where
  creation_channel_id : Option Nat
  name_template : String
  delete_delay : Int
  temp_category_id : Option Nat
  temp_channels : List Nat
  counter : Option Int
  owner_channels : List (Nat × Nat)
deriving DecidableEq

/-- Full state a lifecycle operation can read or write: the guild config,
the in-memory timer registry, the external platform state, and the bot
member's guild permissions.  `next_channel_id` models the fresh id the
platform assigns to a newly created channel. -/
structure BotState where
  conf : GuildConfig
  delete_tasks : List Nat
  voice_channels : List Nat
  categories : List Nat
  occupants : List (Nat × Nat)
  has_manage_channels : Bool
  has_move_members : Bool
  next_channel_id : Nat
deriving DecidableEq

/-- Occupant count of a channel, `len(channel.members)`; a channel with no
entry is empty. -/
def occOf (s : BotState) (ch : Nat) : Nat :=
  ((s.occupants.find? (fun p => p.1 == ch)).map (fun p => p.2)).getD 0

/-- Python dict read `owners.get(str(user_id))`. -/
def dictGet (d : List (Nat × Nat)) (k : Nat) : Option Nat :=
  (d.find? (fun p => p.1 == k)).map (fun p => p.2)

/-- Python dict removal `owners.pop(str(user_id), None)` (state part). -/
def dictPop (d : List (Nat × Nat)) (k : Nat) : List (Nat × Nat) :=
  d.filter (fun p => p.1 ≠ k)

/-- Normalisation of the stored counter performed inside
`get_next_counter`: `if current is None or current < 1: current = 1`. -/
def normalizeCounter : Option Int → Int
  | none => 1
  | some v => if v < 1 then 1 else v

/-- Embeds `get_next_counter` (voicechannelhandling.py lines 137-144):
reads the stored counter, normalises a missing or sub-1 value to 1,
stores the normalised value plus one, and returns the normalised value.
Result: (returned value, new stored counter). -/
def getNextCounter (c : Option Int) : Int × Option Int :=
  let current := normalizeCounter c
  (current, some (current + 1))

/-- Iterated calls to `get_next_counter` threading the stored counter:
the list of values returned by `n` successive calls starting from stored
counter `c`. -/
def counterRun : Option Int → Nat → List Int
  | _, 0 => []
  | c, n + 1 =>
    let r := (getNextCounter c).1
    r :: counterRun (getNextCounter c).2 n

/-- Embeds `_add_temp_channel` (lines 411-415): append the channel id to
the tracked list only if it is absent. -/
def addTempChannel (l : List Nat) (ch : Nat) : List Nat :=
  if ch ∈ l then l else l ++ [ch]

/-- Embeds `_remove_temp_channel` (lines 417-421): remove the channel id
from the tracked list only if it is present (`list.remove` drops the first
occurrence). -/
def removeTempChannel (l : List Nat) (ch : Nat) : List Nat :=
  if ch ∈ l then l.erase ch else l

/-- Embeds `_set_owner_channel` (lines 423-426): plain dict assignment
`owners[str(user_id)] = channel_id` — update in place when the key exists,
append otherwise.  Note the source performs no clearing of other entries. -/
def setOwnerChannel (d : List (Nat × Nat)) (userId chId : Nat) : List (Nat × Nat) :=
  if d.any (fun p => p.1 == userId) then
    d.map (fun p => if p.1 == userId then (userId, chId) else p)
  else d ++ [(userId, chId)]

/-- Embeds `_clear_owner_by_channel` (lines 444-449): pop every entry whose
value equals the given channel id. -/
def clearOwnerByChannel (d : List (Nat × Nat)) (chId : Nat) : List (Nat × Nat) :=
  d.filter (fun p => p.2 ≠ chId)

/-- Value substituted for a replacement-field name by
`template.format(user=..., id=..., tag=..., counter=...)`; `none` models a
lookup failure (`KeyError` for an unknown keyword, `IndexError` for the
positional fields `\x7b\x7d` and `\x7b0\x7d` since no positional arguments
are passed). -/
def fmtField (name : String) (m : Member) (counter : Int) : Option String :=
  if name = "user" then some m.display_name
  else if name = "id" then some (toString m.id)
  else if name = "tag" then some m.tag
  else if name = "counter" then some (toString counter)
  else none

/-- Model of Python `str.format` restricted to the replacement fields this
cog documents (simple named fields; conversion and format-spec suffixes are
not modelled and count as lookup failures).  Doubled braces are literal
braces; an unmatched brace is a `ValueError`; any raised error is `none`.
The boolean flag is `none` in literal mode and `some acc` while scanning a
field name (accumulated in reverse). -/
def runFormatAux (m : Member) (counter : Int) :
    List Char → Option (List Char) → Option String
  | [], none => some ""
  | [], some _ => none
  | '{' :: '{' :: rest, none =>
    (runFormatAux m counter rest none).map (fun s => "\x7b" ++ s)
  | '}' :: '}' :: rest, none =>
    (runFormatAux m counter rest none).map (fun s => "\x7d" ++ s)
  | '{' :: rest, none => runFormatAux m counter rest (some [])
  | '}' :: _, none => none
  | c :: rest, none =>
    (runFormatAux m counter rest none).map (fun s => String.mk [c] ++ s)
  | '}' :: rest, some acc =>
    match fmtField (String.mk acc.reverse) m counter with
    | some v => (runFormatAux m counter rest none).map (fun s => v ++ s)
    | none => none
  | c :: rest, some acc => runFormatAux m counter rest (some (c :: acc))

/-- Outcome of `template.format(user=..., id=..., tag=..., counter=...)`:
`some` of the rendered string, or `none` when formatting raises. -/
def runFormat (template : String) (m : Member) (counter : Int) : Option String :=
  runFormatAux m counter template.data none

/-- Fallback name the renderer produces on any formatting error:
the f-string `f"\x7bmember.display_name\x7d's channel"`. -/
def fallbackName (m : Member) : String :=
  m.display_name ++ "\x27s channel"

/-- Embeds `_render_channel_name` (lines 334-352): try to format the
template with the four placeholders, and on any exception return the
fallback name. -/
def renderChannelName (template : String) (m : Member) (counter : Int) : String :=
  match runFormat template m counter with
  | some s => s
  | none => fallbackName m

/-- Embeds `_schedule_delete_temp_channel` (lines 354-365): no-op when a
timer is already registered for the channel or the channel is not empty at
call time; otherwise create the deletion task and register it. -/
def scheduleDeleteTempChannel (s : BotState) (ch : Nat) : BotState :=
  if ch ∈ s.delete_tasks then s
  else if occOf s ch ≠ 0 then s
  else { s with delete_tasks := s.delete_tasks ++ [ch] }

/-- Embeds `_cancel_delete_task` (lines 401-405): pop the registry entry
for the channel id (no-op when absent) and cancel the popped task, so the
task body never runs. -/
def cancelDeleteTask (s : BotState) (ch : Nat) : BotState :=
  { s with delete_tasks := s.delete_tasks.filter (fun c => c ≠ ch) }

/-- Embeds the timer body `_delete_temp_channel_after_delay`
(lines 367-399) at the moment the sleep has elapsed uncancelled: re-check
emptiness; if still empty, delete the channel on the platform (a
`discord.NotFound` is swallowed, so deleting an already-gone id is a
no-op, which the set-semantics filter models), remove it from
`temp_channels`, purge `owner_channels` entries pointing at it; in both
branches the `finally` block pops the timer-registry entry. -/
def deleteTempChannelAfterDelay (s : BotState) (ch : Nat) : BotState :=
  if occOf s ch = 0 then
    { s with
      voice_channels := s.voice_channels.filter (fun c => c ≠ ch),
      conf := { s.conf with
        temp_channels := removeTempChannel s.conf.temp_channels ch,
        owner_channels := clearOwnerByChannel s.conf.owner_channels ch },
      delete_tasks := s.delete_tasks.filter (fun c => c ≠ ch) }
  else
    { s with delete_tasks := s.delete_tasks.filter (fun c => c ≠ ch) }

/-- Timer-relevant events on one guild: registering a deletion timer,
cancelling it, and a registered timer's delay elapsing (the task body
runs).  `fire` is only enabled while the registry holds a live task for
the channel: a cancelled task is popped from the registry and its sleep is
interrupted, so its body never runs. -/
inductive Ev
  | schedule (ch : Nat)
  | cancel (ch : Nat)
  | fire (ch : Nat)
deriving DecidableEq

/-- One step of the timer-event semantics. -/
def step (s : BotState) : Ev → BotState
  | .schedule ch => scheduleDeleteTempChannel s ch
  | .cancel ch => cancelDeleteTask s ch
  | .fire ch => if ch ∈ s.delete_tasks then deleteTempChannelAfterDelay s ch else s

/-- Run a sequence of timer events from a state. -/
def run (s : BotState) : List Ev → BotState
  | [] => s
  | e :: es => run (step s e) es

/-- Embeds `_get_owner_channel_id` (lines 428-442): read the owner map; if
the user has no entry return `none`; if the mapped channel is no longer an
existing voice channel, pop the stale entry (a config mutation) and return
`none`; otherwise return the channel id.  Result: (returned id, possibly
mutated owner map). -/
def getOwnerChannelId (d : List (Nat × Nat)) (voiceChannels : List Nat)
    (userId : Nat) : Option Nat × List (Nat × Nat) :=
  match dictGet d userId with
  | none => (none, d)
  | some chanId =>
    if chanId ∈ voiceChannels then (some chanId, d)
    else (none, dictPop d userId)

/-- Result of `_handle_creation_join`: the member was moved back into their
existing channel, a new channel (with its rendered name and resolved
category) was created and the member moved into it, or the handler
returned early for lack of bot permissions. -/
inductive JoinResult
  | reused (ch : Nat)
  | created (ch : Nat) (name : String) (category : Option Nat)
  | aborted
deriving DecidableEq

/-- Category resolution inside `_handle_creation_join` (lines 310-317):
the configured `temp_category_id` when it names an existing category,
otherwise the base (lobby) channel's category. -/
def resolveCategory (tempCategoryId : Option Nat) (categories : List Nat)
    (baseCategory : Option Nat) : Option Nat :=
  match tempCategoryId with
  | some cid => if cid ∈ categories then some cid else baseCategory
  | none => baseCategory

/-- Embeds `_handle_creation_join` (lines 268-332) for a lobby join of a
non-bot member, `baseCategory` being the lobby channel's category.
Step 1: if `_get_owner_channel_id` yields a channel that exists (which its
`some` result guarantees), cancel its pending delete task and move the
member back into it (the move is try/except best-effort).  Step 2:
otherwise read the template, consume a counter value (persisted by
`get_next_counter` before anything else happens), render the name, build
the permission overwrites (local values, not modelled as no claim concerns
them), and only then check the bot's `manage_channels` and `move_members`
permissions, returning early if either is missing — the counter write has
already happened.  On the create path the platform assigns the fresh id,
the channel is tracked, ownership recorded, and the member moved. -/
def handleCreationJoin (s : BotState) (m : Member) (baseCategory : Option Nat) :
    BotState × JoinResult :=
  let r1 := getOwnerChannelId s.conf.owner_channels s.voice_channels m.id
  let conf1 := { s.conf with owner_channels := r1.2 }
  match r1.1 with
  | some cid =>
    ({ s with conf := conf1,
              delete_tasks := s.delete_tasks.filter (fun c => c ≠ cid) },
     .reused cid)
  | none =>
    let template := conf1.name_template
    let nc := getNextCounter conf1.counter
    let conf2 := { conf1 with counter := nc.2 }
    let name := renderChannelName template m nc.1
    if ¬ (s.has_manage_channels ∧ s.has_move_members) then
      ({ s with conf := conf2 }, .aborted)
    else
      let category := resolveCategory conf2.temp_category_id s.categories baseCategory
      let newId := s.next_channel_id
      let conf3 := { conf2 with
        temp_channels := addTempChannel conf2.temp_channels newId,
        owner_channels := setOwnerChannel conf2.owner_channels m.id newId }
      ({ s with conf := conf3,
                voice_channels := s.voice_channels ++ [newId],
                next_channel_id := newId + 1 },
       .created newId name category)

/-- Outcome of the ownership-transfer command: the possibly updated guild
config, the name passed to `channel.edit` when the edit was attempted, and
which exit the command took. -/
inductive TransferResult
  | noOwnedChannel
  | botTarget
  | targetNotPresent
  | editFailed
  | success
deriving DecidableEq

/-- Result record of `vch_owner_transfer`. -/
structure TransferOutcome where
  conf : GuildConfig
  editName : Option String
  result : TransferResult
deriving DecidableEq

/-- Embeds `_get_owned_temp_channel_for_ctx` (VCOwnerCommand.py lines
236-292): the author must be connected to a voice channel, that channel
must be tracked in `temp_channels`, and the first `owner_channels` entry
whose value is that channel must name the author.  `authorVoice` is the
author's current voice channel, if any. -/
def getOwnedTempChannelForCtx (conf : GuildConfig) (author : Member)
    (authorVoice : Option Nat) : Option Nat :=
  match authorVoice with
  | none => none
  | some ch =>
    if ch ∈ conf.temp_channels then
      match conf.owner_channels.find? (fun p => p.2 == ch) with
      | some entry => if entry.1 = author.id then some ch else none
      | none => none
    else none

/-- Embeds `vch_owner_transfer` (VCOwnerCommand.py lines 56-124): resolve
the owned temp channel; reject a bot target or a target not in the same
voice channel; read the template and consume a counter value via
`get_next_counter` (which stores the incremented counter); render the new
name with the new owner's identity and the returned (pre-increment) value;
attempt `channel.edit` (`editOk` models whether it raises
`discord.HTTPException`) — on failure the owner mapping is left untouched;
on success clear owners of the channel then record the new owner. -/
def vchOwnerTransfer (conf : GuildConfig) (author newOwner : Member)
    (authorVoice newOwnerVoice : Option Nat) (editOk : Bool) : TransferOutcome :=
  match getOwnedTempChannelForCtx conf author authorVoice with
  | none => ⟨conf, none, .noOwnedChannel⟩
  | some ch =>
    if newOwner.bot then ⟨conf, none, .botTarget⟩
    else if newOwnerVoice ≠ some ch then ⟨conf, none, .targetNotPresent⟩
    else
      let nc := getNextCounter conf.counter
      let conf1 := { conf with counter := nc.2 }
      let newName := renderChannelName conf.name_template newOwner nc.1
      if ¬ editOk then ⟨conf1, some newName, .editFailed⟩
      else
        let conf2 := { conf1 with
          owner_channels :=
            setOwnerChannel (clearOwnerByChannel conf1.owner_channels ch)
              newOwner.id ch }
        ⟨conf2, some newName, .success⟩

/-! Concrete members, configs and states used by witness and
counterexample theorems. -/

/-- Concrete member used in examples. -/
def alice : Member := ⟨42, "Alice", "Alice#1234", false⟩

/-- Concrete member used in examples. -/
def bob : Member := ⟨77, "Bob", "Bob#1", false⟩

/-- Concrete guild config used in examples: lobby channel 10, the default
name template, tracked temp channel 200 owned by Alice, counter 5. -/
def exConf : GuildConfig :=
  ⟨some 10, "{user}\x27s channel", 10, none, [200], some 5, [(42, 200)]⟩

/-- Concrete state used in examples: guild with config `exConf`, voice
channels 10 (the lobby) and 200 (Alice's temp channel, empty), all bot
permissions granted, no pending timers. -/
def exState : BotState :=
  ⟨exConf, [], [10, 200], [], [(200, 0)], true, true, 500⟩

/-! Helper lemmas shared by the claim theorems. -/

theorem normalizeCounter_one_le (c : Option Int) : 1 ≤ normalizeCounter c := by
  cases c with
  | none => simp [normalizeCounter]
  | some v =>
    simp only [normalizeCounter]
    split <;> omega

theorem counterRun_chain_and_lb (n : Nat) :
    ∀ c : Option Int, List.Chain' (· < ·) (counterRun c n) ∧
      ∀ x ∈ counterRun c n, normalizeCounter c ≤ x := by
  induction n with
  | zero => intro c; simp [counterRun]
  | succ n ih =>
    intro c
    have haux : ∀ x : Int, 1 ≤ x → normalizeCounter (some (x + 1)) = x + 1 := by
      intro x hx
      simp only [normalizeCounter]
      split <;> omega
    have hgc : (getNextCounter c).2 = some (normalizeCounter c + 1) := rfl
    have hnorm : normalizeCounter (getNextCounter c).2 = normalizeCounter c + 1 := by
      rw [hgc, haux (normalizeCounter c) (normalizeCounter_one_le c)]
    have hrest := ih (getNextCounter c).2
    constructor
    · simp only [counterRun]
      refine List.chain'_cons'.mpr ⟨?_, hrest.1⟩
      intro y hy
      have hy' : y ∈ counterRun (getNextCounter c).2 n := List.mem_of_mem_head? hy
      have := hrest.2 y hy'
      rw [hnorm] at this
      have : normalizeCounter c + 1 ≤ y := this
      simp only [getNextCounter]
      omega
    · intro x hx
      simp only [counterRun, List.mem_cons] at hx
      rcases hx with hx | hx
      · simp [hx, getNextCounter]
      · have := hrest.2 x hx
        rw [hnorm] at this
        omega

/-- C10: `_add_temp_channel` appends a channel id only when absent and
`_remove_temp_channel` removes one only when present, so both preserve
duplicate-freeness of the tracked temp-channel list: it faithfully
represents a set. -/
theorem tempChannels_nodup_preserved (l : List Nat) (ch : Nat) (h : l.Nodup) :
    (addTempChannel l ch).Nodup ∧ (removeTempChannel l ch).Nodup := by
  constructor
  · unfold addTempChannel
    split
    · exact h
    · next hmem =>
      simp [List.nodup_append, h, hmem]
  · unfold removeTempChannel
    split
    · exact h.erase ch
    · exact h

/-- C10 witness: concrete instance of the invariant preservation. -/
theorem tempChannels_nodup_witness :
    (addTempChannel [200, 300] 300).Nodup ∧ (removeTempChannel [200, 300] 300).Nodup :=
  tempChannels_nodup_preserved [200, 300] 300 (by decide)

/-- C8: `_render_channel_name` is total and falls back exactly on
formatting errors: for every template, member and counter, either
formatting fails and the result is precisely the fallback
`display_name ++ "\x27s channel"`, or formatting succeeds and the result
is the formatted string. -/
theorem renderChannelName_fallback_total (t : String) (m : Member) (c : Int) :
    (runFormat t m c = none ∧ renderChannelName t m c = fallbackName m) ∨
    (∃ s, runFormat t m c = some s ∧ renderChannelName t m c = s) := by
  cases hf : runFormat t m c with
  | none => exact Or.inl ⟨rfl, by simp [renderChannelName, hf]⟩
  | some s => exact Or.inr ⟨s, rfl, by simp [renderChannelName, hf]⟩

/-- C7: `get_next_counter` is read-increment-return — it returns the
stored counter normalised to at least 1 and stores that value plus one —
and across any sequence of calls the returned values are strictly
increasing, hence never repeated. -/
theorem getNextCounter_monotone (c : Option Int) (n : Nat) :
    getNextCounter c = (normalizeCounter c, some (normalizeCounter c + 1)) ∧
    (counterRun c n).Pairwise (· < ·) ∧ (counterRun c n).Nodup := by
  have hp : (counterRun c n).Pairwise (· < ·) :=
    List.chain'_iff_pairwise.mp (counterRun_chain_and_lb n c).1
  exact ⟨rfl, hp, hp.imp Int.ne_of_lt⟩

/-- C6: `_schedule_delete_temp_channel` is a no-op when a timer entry
already exists for the channel or the channel is occupied at call time,
and scheduling twice in a row equals scheduling once. -/
theorem scheduleDelete_noop_idempotent (s : BotState) (ch : Nat) :
    ((ch ∈ s.delete_tasks ∨ occOf s ch ≠ 0) → scheduleDeleteTempChannel s ch = s) ∧
    scheduleDeleteTempChannel (scheduleDeleteTempChannel s ch) ch =
      scheduleDeleteTempChannel s ch := by
  constructor
  · intro h
    unfold scheduleDeleteTempChannel
    rcases h with h | h
    · simp [h]
    · split
      · rfl
      · simp [h]
  · by_cases h1 : ch ∈ s.delete_tasks
    · have : scheduleDeleteTempChannel s ch = s := by
        unfold scheduleDeleteTempChannel; simp [h1]
      rw [this, this]
    · by_cases h2 : occOf s ch ≠ 0
      · have : scheduleDeleteTempChannel s ch = s := by
          unfold scheduleDeleteTempChannel; simp [h1, h2]
        rw [this, this]
      · have hfirst : scheduleDeleteTempChannel s ch =
            { s with delete_tasks := s.delete_tasks ++ [ch] } := by
          unfold scheduleDeleteTempChannel; simp [h1, h2]
        rw [hfirst]
        unfold scheduleDeleteTempChannel
        simp

/-- C6 witness: in the concrete state with a timer already registered for
channel 200, scheduling is the identity, and double scheduling from the
base state equals single scheduling. -/
theorem scheduleDelete_noop_witness :
    scheduleDeleteTempChannel { exState with delete_tasks := [200] } 200 =
      { exState with delete_tasks := [200] } ∧
    scheduleDeleteTempChannel (scheduleDeleteTempChannel exState 200) 200 =
      scheduleDeleteTempChannel exState 200 :=
  ⟨(scheduleDelete_noop_idempotent { exState with delete_tasks := [200] } 200).1
      (Or.inl (by decide)),
    (scheduleDelete_noop_idempotent exState 200).2⟩

/-- C4: when the deletion timer's delay elapses it re-verifies emptiness.
If the channel is still empty it deletes the channel (a no-op when the
channel is already gone, modelling the swallowed `NotFound`), removes the
id from `temp_channels`, purges every `owner_channels` entry pointing to
it, and removes its own timer-registry entry; no other channel is
deleted.  If occupants are found it exits deleting nothing, with the
guild config untouched and without rescheduling itself (no new registry
entry appears). -/
theorem deleteTempChannelAfterDelay_spec (s : BotState) (ch : Nat)
    (hnd : s.conf.temp_channels.Nodup) :
    (occOf s ch = 0 →
      ch ∉ (deleteTempChannelAfterDelay s ch).voice_channels ∧
      ch ∉ (deleteTempChannelAfterDelay s ch).conf.temp_channels ∧
      (∀ p ∈ (deleteTempChannelAfterDelay s ch).conf.owner_channels, p.2 ≠ ch) ∧
      ch ∉ (deleteTempChannelAfterDelay s ch).delete_tasks ∧
      (∀ c, c ≠ ch →
        (c ∈ (deleteTempChannelAfterDelay s ch).voice_channels ↔
          c ∈ s.voice_channels))) ∧
    (occOf s ch ≠ 0 →
      (deleteTempChannelAfterDelay s ch).voice_channels = s.voice_channels ∧
      (deleteTempChannelAfterDelay s ch).conf = s.conf ∧
      (deleteTempChannelAfterDelay s ch).delete_tasks ⊆ s.delete_tasks) := by
  constructor
  · intro hocc
    have hd : deleteTempChannelAfterDelay s ch =
        { s with
          voice_channels := s.voice_channels.filter (fun c => c ≠ ch),
          conf := { s.conf with
            temp_channels := removeTempChannel s.conf.temp_channels ch,
            owner_channels := clearOwnerByChannel s.conf.owner_channels ch },
          delete_tasks := s.delete_tasks.filter (fun c => c ≠ ch) } := by
      unfold deleteTempChannelAfterDelay
      simp [hocc]
    rw [hd]
    refine ⟨by simp, ?_, ?_, by simp, by intro c hc; simp [hc]⟩
    · simp only [removeTempChannel]
      split
      · exact fun hmem => ((hnd.mem_erase_iff).mp hmem).1 rfl
      · assumption
    · intro p hp
      simp only [clearOwnerByChannel, List.mem_filter, decide_eq_true_eq] at hp
      exact hp.2
  · intro hocc
    have hd : deleteTempChannelAfterDelay s ch =
        { s with delete_tasks := s.delete_tasks.filter (fun c => c ≠ ch) } := by
      unfold deleteTempChannelAfterDelay
      simp [hocc]
    rw [hd]
    exact ⟨rfl, rfl, fun a ha => List.mem_of_mem_filter ha⟩

/-- C4 witness: at the concrete state (channel 200 empty, a timer entry
registered) the elapsed timer removes 200 everywhere; at the state where
channel 200 holds three occupants the elapsed timer leaves the config
untouched. -/
theorem deleteTempChannelAfterDelay_witness :
    200 ∉ (deleteTempChannelAfterDelay { exState with delete_tasks := [200] }
      200).voice_channels ∧
    (deleteTempChannelAfterDelay
      { exState with delete_tasks := [200], occupants := [(200, 3)] } 200).conf =
      ({ exState with delete_tasks := [200], occupants := [(200, 3)] } :
        BotState).conf :=
  ⟨((deleteTempChannelAfterDelay_spec { exState with delete_tasks := [200] } 200
      (by decide)).1 (by decide)).1,
    ((deleteTempChannelAfterDelay_spec
      { exState with delete_tasks := [200], occupants := [(200, 3)] } 200
      (by decide)).2 (by decide)).2.1⟩

/-- Single-step preservation for the C5 temporal argument: any event other
than a fresh `schedule` for channel `ch` keeps `ch` out of the timer
registry and keeps `ch` among the existing voice channels. -/
theorem step_preserves_no_timer (s : BotState) (ch : Nat) (e : Ev)
    (he : e ≠ Ev.schedule ch)
    (h1 : ch ∉ s.delete_tasks) (h2 : ch ∈ s.voice_channels) :
    ch ∉ (step s e).delete_tasks ∧ ch ∈ (step s e).voice_channels := by
  cases e with
  | schedule c =>
    have hc : c ≠ ch := fun h => he (by rw [h])
    show ch ∉ (scheduleDeleteTempChannel s c).delete_tasks ∧
      ch ∈ (scheduleDeleteTempChannel s c).voice_channels
    unfold scheduleDeleteTempChannel
    split
    · exact ⟨h1, h2⟩
    · split
      · exact ⟨h1, h2⟩
      · refine ⟨?_, h2⟩
        simp only [List.mem_append, List.mem_singleton]
        rintro (h | h)
        · exact h1 h
        · exact hc h.symm
  | cancel c =>
    show ch ∉ (cancelDeleteTask s c).delete_tasks ∧
      ch ∈ (cancelDeleteTask s c).voice_channels
    constructor
    · intro hmem
      have hm : ch ∈ s.delete_tasks.filter (fun x => x ≠ c) := hmem
      exact h1 (List.mem_of_mem_filter hm)
    · exact h2
  | fire c =>
    show ch ∉ (if c ∈ s.delete_tasks then deleteTempChannelAfterDelay s c
        else s).delete_tasks ∧
      ch ∈ (if c ∈ s.delete_tasks then deleteTempChannelAfterDelay s c
        else s).voice_channels
    by_cases hmem : c ∈ s.delete_tasks
    · simp only [if_pos hmem]
      have hc : c ≠ ch := fun h => h1 (h ▸ hmem)
      constructor
      · intro hm
        unfold deleteTempChannelAfterDelay at hm
        split at hm <;> exact h1 (List.mem_of_mem_filter hm)
      · unfold deleteTempChannelAfterDelay
        split
        · simp only [List.mem_filter, decide_eq_true_eq]
          exact ⟨h2, fun h => hc h.symm⟩
        · exact h2
    · simp only [if_neg hmem]
      exact ⟨h1, h2⟩

/-- Trace preservation for C5: starting from a state where channel `ch`
has no registered timer and still exists, any event sequence containing no
fresh `schedule` for `ch` leaves `ch` timer-free and undeleted. -/
theorem run_preserves_no_timer (evs : List Ev) :
    ∀ s : BotState, ∀ ch : Nat, ch ∉ s.delete_tasks → ch ∈ s.voice_channels →
      (∀ e ∈ evs, e ≠ Ev.schedule ch) →
      ch ∉ (run s evs).delete_tasks ∧ ch ∈ (run s evs).voice_channels := by
  induction evs with
  | nil => intro s ch h1 h2 _; exact ⟨h1, h2⟩
  | cons e es ih =>
    intro s ch h1 h2 h3
    have hstep := step_preserves_no_timer s ch e (h3 e (List.mem_cons_self e es)) h1 h2
    exact ih (step s e) ch hstep.1 hstep.2 fun f hf => h3 f (List.mem_cons_of_mem e hf)

/-- C5: scheduling a deletion for an existing channel and cancelling it
before the delay elapses leaves the timer registry without an entry for
that channel and the channel alive — and it stays alive through any
further events that do not schedule it afresh; cancelling when no timer is
registered is a no-op on the whole state. -/
theorem scheduleThenCancel_no_delete (s : BotState) (ch : Nat) (evs : List Ev)
    (hv : ch ∈ s.voice_channels) (hevs : ∀ e ∈ evs, e ≠ Ev.schedule ch) :
    ch ∉ (step (step s (Ev.schedule ch)) (Ev.cancel ch)).delete_tasks ∧
    ch ∈ (step (step s (Ev.schedule ch)) (Ev.cancel ch)).voice_channels ∧
    ch ∉ (run (step (step s (Ev.schedule ch)) (Ev.cancel ch)) evs).delete_tasks ∧
    ch ∈ (run (step (step s (Ev.schedule ch)) (Ev.cancel ch)) evs).voice_channels ∧
    (ch ∉ s.delete_tasks → cancelDeleteTask s ch = s) := by
  have hnot : ch ∉ (step (step s (Ev.schedule ch)) (Ev.cancel ch)).delete_tasks := by
    show ch ∉ (cancelDeleteTask (step s (Ev.schedule ch)) ch).delete_tasks
    unfold cancelDeleteTask
    simp
  have hvc : ch ∈ (step (step s (Ev.schedule ch)) (Ev.cancel ch)).voice_channels := by
    show ch ∈ (cancelDeleteTask (scheduleDeleteTempChannel s ch) ch).voice_channels
    unfold cancelDeleteTask scheduleDeleteTempChannel
    split
    · exact hv
    · split
      · exact hv
      · exact hv
  have hrun := run_preserves_no_timer evs
    (step (step s (Ev.schedule ch)) (Ev.cancel ch)) ch hnot hvc hevs
  refine ⟨hnot, hvc, hrun.1, hrun.2, ?_⟩
  intro habs
  unfold cancelDeleteTask
  have : s.delete_tasks.filter (fun c => c ≠ ch) = s.delete_tasks :=
    List.filter_eq_self.mpr fun a ha => by
      simp only [decide_eq_true_eq]
      exact fun h => habs (h ▸ ha)
  rw [this]

/-- C5 witness: concrete schedule-then-cancel run for channel 200 followed
by a fire event for 200 — the channel survives and the registry stays
empty of 200; cancelling with no registered timer leaves the state
untouched. -/
theorem scheduleThenCancel_witness :
    200 ∉ (run (step (step exState (Ev.schedule 200)) (Ev.cancel 200))
      [Ev.fire 200]).delete_tasks ∧
    200 ∈ (run (step (step exState (Ev.schedule 200)) (Ev.cancel 200))
      [Ev.fire 200]).voice_channels ∧
    cancelDeleteTask exState 200 = exState := by
  have h := scheduleThenCancel_no_delete exState 200 [Ev.fire 200]
    (by decide) (by decide)
  exact ⟨h.2.2.1, h.2.2.2.1, h.2.2.2.2 (by decide)⟩

/-- C9: a lobby join by a user whose `owner_channels` entry references a
still-existing voice channel takes the reuse path: the pending deletion
timer for that channel (if any) is cancelled, the member is moved back
into it, and the handler returns having created nothing — the guild
config (counter, temp_channels, owner_channels) and the set of existing
channels are untouched. -/
theorem handleCreationJoin_reuse_path (s : BotState) (m : Member) (bc : Option Nat)
    (cid : Nat) (h1 : dictGet s.conf.owner_channels m.id = some cid)
    (h2 : cid ∈ s.voice_channels) :
    (handleCreationJoin s m bc).2 = JoinResult.reused cid ∧
    (handleCreationJoin s m bc).1.conf = s.conf ∧
    (handleCreationJoin s m bc).1.voice_channels = s.voice_channels ∧
    (handleCreationJoin s m bc).1.delete_tasks =
      s.delete_tasks.filter (fun c => c ≠ cid) := by
  have hg : getOwnerChannelId s.conf.owner_channels s.voice_channels m.id =
      (some cid, s.conf.owner_channels) := by
    unfold getOwnerChannelId
    rw [h1]
    simp [h2]
  simp [handleCreationJoin, hg]

/-- C9 witness: Alice owns channel 200 which exists, a timer is pending
for it; her lobby join reuses the channel, cancels the timer, and leaves
the config untouched. -/
theorem handleCreationJoin_reuse_witness :
    (handleCreationJoin { exState with delete_tasks := [200] } alice none).2 =
      JoinResult.reused 200 ∧
    (handleCreationJoin { exState with delete_tasks := [200] } alice none).1.conf =
      ({ exState with delete_tasks := [200] } : BotState).conf := by
  have h := handleCreationJoin_reuse_path { exState with delete_tasks := [200] }
    alice none 200 (by decide) (by decide)
  exact ⟨h.1, h.2.1⟩

/-- C2 counterexample: in a state where Bob has no owned channel and the
bot lacks the manage-channels permission, the lobby join aborts without
creating a channel, yet the stored counter has changed from 5 to 6 — the
guild config is not exactly what it was before, refuting the claim. -/
theorem handleCreationJoin_abort_counterexample :
    (handleCreationJoin { exState with has_manage_channels := false } bob none).2 =
      JoinResult.aborted ∧
    (handleCreationJoin { exState with has_manage_channels := false }
      bob none).1.conf.counter = some 6 ∧
    (handleCreationJoin { exState with has_manage_channels := false }
      bob none).1.conf.counter ≠
      ({ exState with has_manage_channels := false } : BotState).conf.counter := by
  refine ⟨rfl, rfl, ?_⟩
  decide

/-- C2 (amended): when no reusable owned channel exists and the bot lacks
the manage-channels or move-members permission, the lobby join aborts
with no channel created, the timer registry, temp_channels and the
platform state unchanged, and owner_channels changed only by the lazy
purge of a stale entry inside `_get_owner_channel_id` — but the stored
counter has already been advanced to its normalised old value plus one,
because `get_next_counter` runs before the permission check. -/
theorem handleCreationJoin_permission_abort_amended (s : BotState) (m : Member)
    (bc : Option Nat)
    (h1 : (getOwnerChannelId s.conf.owner_channels s.voice_channels m.id).1 = none)
    (h2 : ¬ (s.has_manage_channels ∧ s.has_move_members)) :
    (handleCreationJoin s m bc).2 = JoinResult.aborted ∧
    (handleCreationJoin s m bc).1.voice_channels = s.voice_channels ∧
    (handleCreationJoin s m bc).1.delete_tasks = s.delete_tasks ∧
    (handleCreationJoin s m bc).1.conf.temp_channels = s.conf.temp_channels ∧
    (handleCreationJoin s m bc).1.conf.owner_channels =
      (getOwnerChannelId s.conf.owner_channels s.voice_channels m.id).2 ∧
    (handleCreationJoin s m bc).1.conf.counter =
      some (normalizeCounter s.conf.counter + 1) := by
  rcases hgeq : getOwnerChannelId s.conf.owner_channels s.voice_channels m.id
    with ⟨o, d2⟩
  rw [hgeq] at h1
  simp only at h1
  subst h1
  simp only [handleCreationJoin, hgeq, getNextCounter]
  simp [h2]

/-- C2 witness: concrete instance of the amended abort behaviour. -/
theorem handleCreationJoin_permission_abort_witness :
    (handleCreationJoin { exState with has_manage_channels := false } bob none).2 =
      JoinResult.aborted ∧
    (handleCreationJoin { exState with has_manage_channels := false }
      bob none).1.conf.temp_channels =
      ({ exState with has_manage_channels := false } : BotState).conf.temp_channels := by
  have h := handleCreationJoin_permission_abort_amended
    { exState with has_manage_channels := false } bob none (by decide) (by decide)
  exact ⟨h.1, h.2.2.2.1⟩

/-- C1 counterexample: a successful ownership transfer from Alice to Bob
in channel 200 with stored counter 5 leaves the stored counter at 6 — the
transfer does increment the guild counter, refuting the claim that the
stored counter after equals the stored counter before. -/
theorem vchOwnerTransfer_counter_counterexample :
    (vchOwnerTransfer exConf alice bob (some 200) (some 200) true).result =
      TransferResult.success ∧
    (vchOwnerTransfer exConf alice bob (some 200) (some 200) true).conf.counter =
      some 6 ∧
    (vchOwnerTransfer exConf alice bob (some 200) (some 200) true).conf.counter ≠
      exConf.counter := by
  refine ⟨rfl, rfl, ?_⟩
  decide

/-- C1 (amended): the ownership transfer renames the channel using the new
owner's identity and the counter value current at the time of the call —
the pre-increment value `get_next_counter` returns — and the stored guild
counter after the operation equals that current value plus one: the
transfer consumes a counter value rather than leaving the counter
unchanged. -/
theorem vchOwnerTransfer_current_counter_amended (conf : GuildConfig)
    (author newOwner : Member) (av : Option Nat) (ch : Nat) (editOk : Bool)
    (h1 : getOwnedTempChannelForCtx conf author av = some ch)
    (h2 : newOwner.bot = false) :
    (vchOwnerTransfer conf author newOwner av (some ch) editOk).editName =
      some (renderChannelName conf.name_template newOwner
        (normalizeCounter conf.counter)) ∧
    (vchOwnerTransfer conf author newOwner av (some ch) editOk).conf.counter =
      some (normalizeCounter conf.counter + 1) := by
  simp only [vchOwnerTransfer, h1, h2, getNextCounter]
  cases editOk <;> simp

/-- C1 witness: concrete instance — the rename uses Bob's identity with
counter value 5 and the stored counter ends at 6. -/
theorem vchOwnerTransfer_current_counter_witness :
    (vchOwnerTransfer exConf alice bob (some 200) (some 200) true).editName =
      some (renderChannelName exConf.name_template bob
        (normalizeCounter exConf.counter)) ∧
    (vchOwnerTransfer exConf alice bob (some 200) (some 200) true).conf.counter =
      some (normalizeCounter exConf.counter + 1) :=
  vchOwnerTransfer_current_counter_amended exConf alice bob (some 200) 200 true
    (by decide) (by decide)

/-- C3 counterexample: `_set_owner_channel` on a map where user 1 owns
channel 100, writing user 2 also to channel 100, clears nothing: the
result holds two entries whose value is channel 100, refuting the claim
that the operation first clears the existing owner of the channel. -/
theorem setOwnerChannel_no_clear_counterexample :
    setOwnerChannel [(1, 100)] 2 100 = [(1, 100), (2, 100)] ∧
    ¬ (setOwnerChannel [(1, 100)] 2 100).countP (fun p => p.2 == 100) ≤ 1 := by
  decide

/-- C3 (amended): `_set_owner_channel` is a plain keyed-dict write that
clears nothing by itself; because the map is keyed by user id it preserves
the at-most-one-entry-per-user property, and the channel-id-appears-at-
most-once property holds for the clear-then-set sequence the transfer
command performs (`_clear_owner_by_channel` followed by
`_set_owner_channel` with that channel). -/
theorem setOwnerChannel_uniqueness_amended (d : List (Nat × Nat)) (u c : Nat)
    (h : (d.map Prod.fst).Nodup) :
    ((setOwnerChannel d u c).map Prod.fst).Nodup ∧
    (setOwnerChannel (clearOwnerByChannel d c) u c).countP
      (fun p => p.2 == c) ≤ 1 := by
  constructor
  · unfold setOwnerChannel
    split
    · have hmap : (d.map (fun p => if p.1 == u then (u, c) else p)).map Prod.fst =
          d.map Prod.fst := by
        rw [List.map_map]
        apply List.map_congr_left
        intro p _
        by_cases hpu : p.1 = u
        · simp [hpu]
        · simp [hpu]
      rw [hmap]
      exact h
    · next hany =>
      simp only [List.any_eq_true, beq_iff_eq, not_exists, not_and] at hany
      rw [List.map_append]
      simp only [List.map_cons, List.map_nil]
      rw [List.nodup_append]
      refine ⟨h, List.nodup_singleton u, ?_⟩
      intro a ha hb
      simp only [List.mem_singleton] at hb
      subst hb
      rcases List.mem_map.mp ha with ⟨p, hp, hpa⟩
      exact hany p hp hpa
  · have hclear : ∀ p ∈ clearOwnerByChannel d c, p.2 ≠ c := by
      intro p hp
      simp only [clearOwnerByChannel, List.mem_filter, decide_eq_true_eq] at hp
      exact hp.2
    have hnd : ((clearOwnerByChannel d c).map Prod.fst).Nodup :=
      ((List.filter_sublist d).map Prod.fst).nodup h
    unfold setOwnerChannel
    split
    · rw [List.countP_map]
      have hcongr : (clearOwnerByChannel d c).countP
          ((fun p => p.2 == c) ∘ fun p => if p.1 == u then (u, c) else p) =
          (clearOwnerByChannel d c).countP (fun p => p.1 == u) := by
        apply List.countP_congr
        intro p hp
        by_cases hpu : p.1 = u
        · simp [hpu]
        · simp only [Function.comp_apply, if_neg (by simpa using hpu)]
          simp [hpu, hclear p hp]
      rw [hcongr]
      have hcount : (clearOwnerByChannel d c).countP (fun p => p.1 == u) =
          List.count u ((clearOwnerByChannel d c).map Prod.fst) := by
        rw [List.count_eq_countP, List.countP_map]
        rfl
      rw [hcount]
      exact List.nodup_iff_count_le_one.mp hnd u
    · rw [List.countP_append]
      have h0 : (clearOwnerByChannel d c).countP (fun p => p.2 == c) = 0 :=
        List.countP_eq_zero.mpr (fun p hp => by simp [hclear p hp])
      simp [h0]

/-- C3 witness: concrete instance — keys stay duplicate-free and the
transfer sequence leaves at most one entry valued 200. -/
theorem setOwnerChannel_uniqueness_witness :
    ((setOwnerChannel [(42, 200)] 77 200).map Prod.fst).Nodup ∧
    (setOwnerChannel (clearOwnerByChannel [(42, 200)] 200) 77 200).countP
      (fun p => p.2 == 200) ≤ 1 :=
  setOwnerChannel_uniqueness_amended [(42, 200)] 77 200 (by decide)

end VCH
